import Mathlib

/-!
# Verification of the creek audio capture pipeline

Shallow embedding of `src/creek-backend/audio/recorder.py` (`AudioRecorder`):
the producer/consumer capture pipeline (`_audio_callback`, `_process_audio`),
the session controller (`start_recording`, `stop_recording`, `record`) and the
PCM16 conversion in `_save_wav`.

Two views of the same code are embedded:

* a small-step trace semantics of the concurrent pipeline (driver callback
  enqueues, the drain worker dequeues, the controller stops), used for the
  ordering / drain-completeness / progress-callback properties;
* a deterministic state-passing model of the controller methods, used for the
  error-handling, file-naming and save-path properties.
-/

namespace Creek

/-- An audio chunk: the block of frames delivered by one driver callback
(`indata` in `_audio_callback`).  One rational per frame (the per-frame
channel structure is irrelevant to every property proved here); `length`
is the Python `len(data)`, the number of frames in the chunk. -/
abbrev Chunk := List ℚ

/-- The shared state of the capture pipeline while a session is live:
the `recording` flag, whether the input stream is open (i.e. the driver
may still fire `_audio_callback`), the FIFO `audio_queue`, the accumulated
`frames` buffer, the list of progress-callback invocations made so far
(argument pairs `(duration, len(data))` of `self.callback(duration, len(data))`),
and whether the drain worker's `while` loop has exited. -/
structure SysState where
  recording : Bool
  streamOpen : Bool
  queue : List Chunk
  frames : List Chunk
  calls : List (ℚ × ℕ)
  workerDone : Bool
  deriving DecidableEq

/-- The state right after `start_recording` has set `recording = True`,
reset `frames = []` and started the stream and the worker. -/
def init : SysState :=
  { recording := true, streamOpen := true, queue := [], frames := [],
    calls := [], workerDone := false }

/-- Events of the pipeline: a driver callback enqueuing a chunk
(`self.audio_queue.put(indata.copy())`), the worker draining one chunk
(one successful `get` iteration of `_process_audio`), the controller
stopping (`stream.stop(); stream.close(); self.recording = False`), and
the worker's loop condition failing so the loop exits. -/
inductive Event where
  | enqueue (c : Chunk)
  | drain
  | stopEvt
  | exitLoop
  deriving DecidableEq

/-- The progress value computed in `_process_audio`:
`duration = (len(self.frames) * self.chunk_size) / self.sample_rate`,
where `n` is `len(self.frames)` after the append. -/
def progressVal (cs sr n : ℕ) : ℚ := ((n * cs : ℕ) : ℚ) / (sr : ℚ)

/-- Small-step relation of the pipeline, parametrised by `chunk_size`,
`sample_rate` and whether a progress callback is registered (`cb`).

* `enqueue`: `_audio_callback` may fire only while the stream is open; it
  appends the chunk at the back of the FIFO queue and never blocks.
* `drain`: while its loop has not exited, the worker pops the front chunk,
  appends it to `frames`, and (if a callback is registered) invokes it with
  `(len(frames) * chunk_size / sample_rate, len(data))`.
* `stopEvt`: `stop_recording` stops and closes the stream and then clears
  the `recording` flag.
* `exitLoop`: the worker's `while self.recording or not self.audio_queue.empty()`
  condition is false — `recording` is false AND the queue is empty — and the
  loop exits. -/
inductive Step (cs sr : ℕ) (cb : Bool) : SysState → Event → SysState → Prop where
  | enqueue (s : SysState) (c : Chunk) (hs : s.streamOpen = true) :
      Step cs sr cb s (.enqueue c) { s with queue := s.queue ++ [c] }
  | drain (s : SysState) (c : Chunk) (rest : List Chunk)
      (hq : s.queue = c :: rest) (hw : s.workerDone = false) :
      Step cs sr cb s .drain
        { s with
          queue := rest,
          frames := s.frames ++ [c],
          calls := (if cb then
              s.calls ++ [(progressVal cs sr (s.frames.length + 1), c.length)]
            else s.calls) }
  | stopEvt (s : SysState) (hr : s.recording = true) :
      Step cs sr cb s .stopEvt { s with recording := false, streamOpen := false }
  | exitLoop (s : SysState) (hr : s.recording = false) (hq : s.queue = [])
      (hw : s.workerDone = false) :
      Step cs sr cb s .exitLoop { s with workerDone := true }

/-- A run of the pipeline: a sequence of steps labelled by its event list. -/
inductive Run (cs sr : ℕ) (cb : Bool) : SysState → List Event → SysState → Prop where
  | nil (s : SysState) : Run cs sr cb s [] s
  | cons {s s₁ s₂ : SysState} {e : Event} {es : List Event}
      (hstep : Step cs sr cb s e s₁) (hrun : Run cs sr cb s₁ es s₂) :
      Run cs sr cb s (e :: es) s₂

/-- The chunks enqueued during a trace, in arrival order. -/
def enqueued : List Event → List Chunk
  | [] => []
  | .enqueue c :: es => c :: enqueued es
  | _ :: es => enqueued es

/-- The list of progress-callback invocations `_process_audio` performs for a
given frame buffer, with `k` chunks already accumulated before it: one call
per chunk, with first argument `(k+i+1) * chunk_size / sample_rate` for the
`i`-th chunk and second argument the chunk's frame count. -/
def callSpec (cs sr : ℕ) : ℕ → List Chunk → List (ℚ × ℕ)
  | _, [] => []
  | k, c :: rest => (progressVal cs sr (k + 1), c.length) :: callSpec cs sr (k + 1) rest

theorem callSpec_append_one (cs sr : ℕ) (c : Chunk) :
    ∀ (l : List Chunk) (k : ℕ), callSpec cs sr k (l ++ [c]) =
      callSpec cs sr k l ++ [(progressVal cs sr (k + l.length + 1), c.length)]
  | [], k => by simp [callSpec]
  | d :: rest, k => by
      have ih := callSpec_append_one cs sr c rest (k + 1)
      show (progressVal cs sr (k + 1), d.length) :: callSpec cs sr (k + 1) (rest ++ [c]) =
        (progressVal cs sr (k + 1), d.length) ::
          (callSpec cs sr (k + 1) rest ++
            [(progressVal cs sr (k + (d :: rest).length + 1), c.length)])
      rw [ih]
      have hk : k + 1 + rest.length + 1 = k + (d :: rest).length + 1 := by
        simp only [List.length_cons]
        omega
      rw [hk]

theorem callSpec_length (cs sr : ℕ) : ∀ (k : ℕ) (l : List Chunk),
    (callSpec cs sr k l).length = l.length := by
  intro k l
  induction l generalizing k with
  | nil => rfl
  | cons c rest ih => simp [callSpec, ih]

theorem callSpec_get? (cs sr : ℕ) :
    ∀ (l : List Chunk) (k i : ℕ), (callSpec cs sr k l).get? i =
      (l.get? i).map (fun c => (progressVal cs sr (k + i + 1), c.length))
  | [], k, i => by simp [callSpec]
  | c :: rest, k, 0 => by simp [callSpec]
  | c :: rest, k, (i + 1) => by
      have ih := callSpec_get? cs sr rest (k + 1) i
      show (callSpec cs sr (k + 1) rest).get? i =
        (rest.get? i).map (fun d => (progressVal cs sr (k + (i + 1) + 1), d.length))
      rw [ih]
      have hk : k + 1 + i + 1 = k + (i + 1) + 1 := by omega
      rw [hk]

theorem enqueued_append : ∀ (l1 l2 : List Event),
    enqueued (l1 ++ l2) = enqueued l1 ++ enqueued l2
  | [], _ => rfl
  | .enqueue c :: es, l2 => by
      show c :: enqueued (es ++ l2) = c :: (enqueued es ++ enqueued l2)
      rw [enqueued_append es l2]
  | .drain :: es, l2 => enqueued_append es l2
  | .stopEvt :: es, l2 => enqueued_append es l2
  | .exitLoop :: es, l2 => enqueued_append es l2

/-- Pipeline invariant: the flags are consistent (the stream is only open
while recording; once the worker has exited, recording is off and the queue
is empty), the frames so far followed by the pending queue list exactly the
enqueued chunks in order, and the recorded callback invocations are exactly
one per accumulated chunk with the code's arguments. -/
def Inv (cs sr : ℕ) (cb : Bool) (es : List Event) (s : SysState) : Prop :=
  (s.streamOpen = true → s.recording = true) ∧
  (s.workerDone = true → s.recording = false ∧ s.queue = []) ∧
  s.frames ++ s.queue = enqueued es ∧
  (cb = true → s.calls = callSpec cs sr 0 s.frames)

theorem step_inv {cs sr : ℕ} {cb : Bool} {s s₁ : SysState} {e : Event}
    {es : List Event} (hstep : Step cs sr cb s e s₁)
    (hinv : Inv cs sr cb es s) : Inv cs sr cb (es ++ [e]) s₁ := by
  obtain ⟨hos, hwd, hfq, hcalls⟩ := hinv
  cases hstep with
  | enqueue c hs =>
      refine ⟨fun h => hos h, ?_, ?_, fun h => hcalls h⟩
      · intro h
        rcases hwd h with ⟨h1, _⟩
        have := hos hs
        simp [this] at h1
      · simp [enqueued_append, enqueued, ← hfq]
  | drain c rest hq hw =>
      refine ⟨fun h => hos h, ?_, ?_, ?_⟩
      · intro h
        simp only at h
        exact absurd h (by simp [hw])
      · simp only [enqueued_append, enqueued, List.append_nil, ← hfq, hq]
        simp
      · intro h
        subst h
        simp only [if_pos rfl, hcalls rfl]
        rw [callSpec_append_one]
        simp [progressVal]
  | stopEvt hr =>
      refine ⟨?_, ?_, ?_, fun h => hcalls h⟩
      · intro h; simp only at h; exact absurd h (by simp)
      · intro h
        rcases hwd h with ⟨h1, _⟩
        simp [hr] at h1
      · simp [enqueued_append, enqueued, ← hfq]
  | exitLoop hr hq hw =>
      refine ⟨fun h => hos h, ?_, ?_, fun h => hcalls h⟩
      · intro _
        exact ⟨hr, hq⟩
      · simp [enqueued_append, enqueued, ← hfq]

theorem run_inv {cs sr : ℕ} {cb : Bool} {s s₂ : SysState} {es : List Event}
    (hrun : Run cs sr cb s es s₂) :
    ∀ pre : List Event, Inv cs sr cb pre s → Inv cs sr cb (pre ++ es) s₂ := by
  induction hrun with
  | nil s => intro pre h; simpa using h
  | cons hstep _ ih =>
      intro pre h
      have h₁ := step_inv hstep h
      have h₂ := ih _ h₁
      simpa using h₂

theorem init_inv (cs sr : ℕ) (cb : Bool) : Inv cs sr cb [] init := by
  refine ⟨fun _ => rfl, fun h => by simp [init] at h, rfl, fun _ => rfl⟩

theorem run_inv_init {cs sr : ℕ} {cb : Bool} {s₂ : SysState} {es : List Event}
    (hrun : Run cs sr cb init es s₂) : Inv cs sr cb es s₂ := by
  have := run_inv hrun [] (init_inv cs sr cb)
  simpa using this

theorem progressVal_mono (cs sr : ℕ) {m n : ℕ} (h : m ≤ n) :
    progressVal cs sr m ≤ progressVal cs sr n := by
  unfold progressVal
  have hnum : ((m * cs : ℕ) : ℚ) ≤ ((n * cs : ℕ) : ℚ) := by
    exact_mod_cast Nat.mul_le_mul_right cs h
  exact div_le_div_of_nonneg_right hnum (by positivity)

/-- C1: every chunk enqueued by the driver callback before stop appears in the
final FrameBuffer exactly once and in arrival order.  For any run of the
pipeline from the freshly started state, once the drain worker's loop has
exited, `frames` is literally the list of enqueued chunks, in enqueue order —
no chunk is lost, duplicated, or reordered between `_audio_callback` and
`_process_audio`. -/
theorem C1_chunks_exact_once_in_order (cs sr : ℕ) (cb : Bool) (es : List Event)
    (s₂ : SysState) (hrun : Run cs sr cb init es s₂)
    (hdone : s₂.workerDone = true) :
    s₂.frames = enqueued es := by
  obtain ⟨_, hwd, hfq, _⟩ := run_inv_init hrun
  rcases hwd hdone with ⟨_, hq⟩
  rw [← hfq, hq, List.append_nil]

/-- C2: the drain worker's loop exits only in a state where the recording
flag is false and the queue is empty; consequently when the worker has
exited (so `stop_recording`'s join returns), every enqueued chunk has been
moved into the FrameBuffer. -/
theorem C2_loop_exit_fully_drained (cs sr : ℕ) (cb : Bool) (es : List Event)
    (s₂ : SysState) (hrun : Run cs sr cb init es s₂)
    (hdone : s₂.workerDone = true) :
    s₂.recording = false ∧ s₂.queue = [] ∧
      ∀ c ∈ enqueued es, c ∈ s₂.frames := by
  obtain ⟨_, hwd, hfq, _⟩ := run_inv_init hrun
  rcases hwd hdone with ⟨hr, hq⟩
  refine ⟨hr, hq, fun c hc => ?_⟩
  rw [← hfq, hq, List.append_nil] at hc
  exact hc

/-- C8: with a progress callback registered, the callback is invoked exactly
once per drained chunk, the `i`-th invocation carries
`((i+1) * chunk_size / sample_rate, frameCountOfChunk i)`, and the elapsed
first components are monotonically non-decreasing along the session. -/
theorem C8_progress_callback_per_chunk (cs sr : ℕ) (es : List Event)
    (s₂ : SysState) (hrun : Run cs sr true init es s₂) :
    s₂.calls.length = s₂.frames.length ∧
    (∀ i (hi : i < s₂.calls.length) (hf : i < s₂.frames.length),
      s₂.calls.get ⟨i, hi⟩ =
        (progressVal cs sr (i + 1), (s₂.frames.get ⟨i, hf⟩).length)) ∧
    (∀ i j (hi : i < s₂.calls.length) (hj : j < s₂.calls.length), i ≤ j →
      (s₂.calls.get ⟨i, hi⟩).1 ≤ (s₂.calls.get ⟨j, hj⟩).1) := by
  obtain ⟨_, _, _, hcalls⟩ := run_inv_init hrun
  have hcs := hcalls rfl
  have hlen : s₂.calls.length = s₂.frames.length := by
    rw [hcs, callSpec_length]
  have hget : ∀ i (hi : i < s₂.calls.length) (hf : i < s₂.frames.length),
      s₂.calls.get ⟨i, hi⟩ =
        (progressVal cs sr (i + 1), (s₂.frames.get ⟨i, hf⟩).length) := by
    intro i hi hf
    have h1 : s₂.calls.get? i = some (s₂.calls.get ⟨i, hi⟩) := List.get?_eq_get hi
    have h2 : s₂.frames.get? i = some (s₂.frames.get ⟨i, hf⟩) := List.get?_eq_get hf
    have h3 := callSpec_get? cs sr s₂.frames 0 i
    rw [← hcs, h1, h2] at h3
    simp only [Option.map_some, Nat.zero_add] at h3
    exact Option.some.inj h3
  refine ⟨hlen, hget, fun i j hi hj hij => ?_⟩
  have hfi : i < s₂.frames.length := hlen ▸ hi
  have hfj : j < s₂.frames.length := hlen ▸ hj
  rw [hget i hi hfi, hget j hj hfj]
  exact progressVal_mono cs sr (Nat.succ_le_succ hij)

/-- A concrete pipeline run used to witness the trace theorems: enqueue a
one-frame chunk, drain it, enqueue a two-frame chunk, stop, drain the
remaining chunk, and exit the loop. -/
def exChunk1 : Chunk := [1/2]

/-- Second example chunk (two frames). -/
def exChunk2 : Chunk := [0, 1/4]

/-- Event list of the concrete example run. -/
def exEvents : List Event :=
  [.enqueue exChunk1, .drain, .enqueue exChunk2, .stopEvt, .drain, .exitLoop]

/-- Final state of the concrete example run. -/
def exFinal : SysState :=
  { recording := false, streamOpen := false, queue := [],
    frames := [exChunk1, exChunk2],
    calls := [(progressVal 2 4 1, 1), (progressVal 2 4 2, 2)],
    workerDone := true }

theorem exRun : Run 2 4 true init exEvents exFinal := by
  refine Run.cons (Step.enqueue init exChunk1 rfl) ?_
  refine Run.cons (Step.drain _ exChunk1 [] rfl rfl) ?_
  refine Run.cons (Step.enqueue _ exChunk2 rfl) ?_
  refine Run.cons (Step.stopEvt _ rfl) ?_
  refine Run.cons (Step.drain _ exChunk2 [] rfl rfl) ?_
  refine Run.cons (Step.exitLoop _ rfl rfl rfl) ?_
  exact Run.nil _

/-- Witness for C1 at the concrete example run. -/
theorem C1_witness :
    exFinal.workerDone = true ∧ exFinal.frames = enqueued exEvents ∧
      enqueued exEvents = [exChunk1, exChunk2] :=
  ⟨rfl, C1_chunks_exact_once_in_order 2 4 true exEvents exFinal exRun rfl, rfl⟩

/-- Witness for C2 at the concrete example run. -/
theorem C2_witness :
    exFinal.workerDone = true ∧
      (exFinal.recording = false ∧ exFinal.queue = [] ∧
        ∀ c ∈ enqueued exEvents, c ∈ exFinal.frames) :=
  ⟨rfl, C2_loop_exit_fully_drained 2 4 true exEvents exFinal exRun rfl⟩

/-- Witness for C8 at the concrete example run. -/
theorem C8_witness :
    exFinal.calls.length = exFinal.frames.length ∧
    (∀ i (hi : i < exFinal.calls.length) (hf : i < exFinal.frames.length),
      exFinal.calls.get ⟨i, hi⟩ =
        (progressVal 2 4 (i + 1), (exFinal.frames.get ⟨i, hf⟩).length)) ∧
    (∀ i j (hi : i < exFinal.calls.length) (hj : j < exFinal.calls.length),
      i ≤ j →
      (exFinal.calls.get ⟨i, hi⟩).1 ≤ (exFinal.calls.get ⟨j, hj⟩).1) :=
  C8_progress_callback_per_chunk 2 4 exEvents exFinal exRun

/-! ## The drain body of `_process_audio` with a fallible progress callback

The `try` block of `_process_audio` appends the chunk and then invokes the
registered callback; its single `except queue.Empty: continue` clause is the
only handler.  A callback exception (modelled as `Except String`) therefore
escapes the loop.  `process_drain cb cs sr pending frames` runs the loop over
the pending chunks and returns the accumulated frames together with the
escaped exception, if any. -/

/-- One session's drain with a registered callback that may raise.  Mirrors
the loop body of `_process_audio`: append the chunk to `frames`, then call
`cb ((len(frames) * chunk_size) / sample_rate, len(data))`; only
`queue.Empty` is caught, so a callback error aborts the loop and escapes. -/
def process_drain (cb : ℚ → ℕ → Except String Unit) (cs sr : ℕ) :
    List Chunk → List Chunk → List Chunk × Option String
  | [], frames => (frames, none)
  | c :: rest, frames =>
      match cb (progressVal cs sr (frames ++ [c]).length) c.length with
      | .error e => (frames ++ [c], some e)
      | .ok _ => process_drain cb cs sr rest (frames ++ [c])

/-- Counterexample to C4: with a progress callback that raises, the exception
is NOT caught by `_process_audio` (whose only handler is
`except queue.Empty`): it escapes the drain (the `some "boom"` component),
the loop terminates, and the second pending chunk is never appended to the
FrameBuffer. -/
theorem C4_counterexample :
    process_drain (fun _ _ => .error "boom") 1024 16000 [[0], [1/4]] [] =
      ([[0]], some "boom") := rfl

/-- C4 as amended: an exception raised by the progress callback propagates
out of `_process_audio` and terminates the drain; the chunk that triggered
it was already appended, but no subsequent chunk is appended. -/
theorem C4_amended_callback_error_escapes (cb : ℚ → ℕ → Except String Unit)
    (cs sr : ℕ) (c : Chunk) (rest frames : List Chunk) (e : String)
    (h : cb (progressVal cs sr (frames ++ [c]).length) c.length = .error e) :
    process_drain cb cs sr (c :: rest) frames = (frames ++ [c], some e) := by
  unfold process_drain
  rw [h]

/-- Witness for the amended C4 at a concrete throwing callback. -/
theorem C4_amended_witness :
    process_drain (fun _ _ => .error "crash") 2 4 [[1/2], [0], [1]] [[3]] =
      ([[3], [1/2]], some "crash") :=
  C4_amended_callback_error_escapes (fun _ _ => .error "crash") 2 4
    [1/2] [[0], [1]] [[3]] "crash" rfl

/-! ## PCM16 conversion in `_save_wav`

`_save_wav` performs `(audio_data * 32767).astype(np.int16)`: each float
sample is scaled by 32767 and narrowed by a C-style cast — truncation toward
zero followed by wraparound into the signed 16-bit range, with no clipping.
Samples are modelled as rationals. -/

/-- Truncation toward zero of a rational (what a float-to-integer C cast
does to the scaled sample value). -/
def ratTrunc (x : ℚ) : ℤ := if 0 ≤ x then ⌊x⌋ else ⌈x⌉

/-- Wraparound of an integer into the signed 16-bit range `[-32768, 32767]`,
as narrowing to `np.int16` does. -/
def wrap16 (n : ℤ) : ℤ := (n + 32768) % 65536 - 32768

/-- The conversion the code performs per sample in `_save_wav`:
`(sample * 32767).astype(np.int16)` — scale, truncate toward zero, wrap.
No clipping is applied. -/
def pcm_code (s : ℚ) : ℤ := wrap16 (ratTrunc (s * 32767))

/-- Modelled from the spec: the conversion the spec mandates for `stop` —
`round(sample * 32767)` clipped (saturated) to the int16 range
`[-32768, 32767]`.  Stated from the spec's words for comparison with
`pcm_code`, the conversion the source actually performs. -/
def pcm_spec (s : ℚ) : ℤ := max (-32768) (min 32767 (round (s * 32767)))

/-- C3 (code bug): at the out-of-range sample `s = 2` the claim/spec demands
the saturated bound 32767, but the code's unclipped truncate-and-wrap
narrowing produces `-2` — a wrapped-around value, not the saturated bound.
Even in range the code truncates where the claim says round: at `s = 1/65534`
(scaled value `1/2`) the code writes 0 while the spec rounds to 1. -/
theorem C3_code_wraps_instead_of_clipping :
    pcm_code 2 = -2 ∧ pcm_spec 2 = 32767 ∧
      pcm_code (1/65534) = 0 ∧ pcm_spec (1/65534) = 1 := by
  refine ⟨?_, ?_, ?_, ?_⟩
  · show wrap16 (ratTrunc ((2 : ℚ) * 32767)) = -2
    have h1 : ratTrunc ((2 : ℚ) * 32767) = 65534 := by
      unfold ratTrunc
      rw [if_pos (by norm_num)]
      norm_num [Rat.floor_def]
    rw [h1]
    decide
  · show max (-32768) (min 32767 (round ((2 : ℚ) * 32767))) = 32767
    have h1 : round ((2 : ℚ) * 32767) = 65534 := by
      norm_num [round_eq, Rat.floor_def]
    rw [h1]
    decide
  · show wrap16 (ratTrunc ((1/65534 : ℚ) * 32767)) = 0
    have h1 : ratTrunc ((1/65534 : ℚ) * 32767) = 0 := by
      unfold ratTrunc
      rw [if_pos (by norm_num)]
      norm_num [Rat.floor_def]
    rw [h1]
    decide
  · show max (-32768) (min 32767 (round ((1/65534 : ℚ) * 32767))) = 1
    have h1 : round ((1/65534 : ℚ) * 32767) = 1 := by
      norm_num [round_eq, Rat.floor_def]
    rw [h1]
    decide

/-! ## The session controller

Deterministic state-passing model of `AudioRecorder`'s public methods.
Exceptions propagate to the caller while the object state persists, so each
method returns a result (`Except RecErr`) together with the post-state.
The drain worker's effect between start and join is summarised by moving the
pending queue into `frames` (justified by the trace theorems above). -/

/-- The exceptions of the recorder: `RuntimeError("Recording is already in
progress")`, `RuntimeError("No recording in progress")`, a device-open
failure escaping from `sd.InputStream(...)`, and the error raised by
`self.stream.stop()` when no stream was ever opened for this session. -/
inductive RecErr where
  | alreadyRecording
  | notRecording
  | deviceOpen
  | streamMissing
  deriving DecidableEq

/-- A wall-clock reading, as consumed by
`datetime.now().strftime("%Y%m%d_%H%M%S")`. -/
structure DateTime where
  year : ℕ
  month : ℕ
  day : ℕ
  hour : ℕ
  minute : ℕ
  second : ℕ
  deriving DecidableEq

/-- Zero-padding of a number to a field width, as `strftime` does. -/
def padZero (w n : ℕ) : String :=
  String.mk (List.replicate (w - (toString n).length) '0') ++ toString n

/-- The timestamp `datetime.now().strftime("%Y%m%d_%H%M%S")` used in the
output filename: second resolution, nothing finer. -/
def strftime_ts (t : DateTime) : String :=
  padZero 4 t.year ++ padZero 2 t.month ++ padZero 2 t.day ++ "_" ++
    padZero 2 t.hour ++ padZero 2 t.minute ++ padZero 2 t.second

/-- The output path `self.output_dir / f"recording_{timestamp}.wav"`. -/
def wavPath (dir ts : String) : String :=
  dir ++ "/recording_" ++ ts ++ ".wav"

/-- The mutable state of an `AudioRecorder` instance, together with the
files written so far (`files`: path and PCM16 contents per `_save_wav`
call). -/
structure RecorderState where
  output_dir : String
  recording : Bool
  streamOpen : Bool
  audio_queue : List Chunk
  frames : List Chunk
  output_file : Option String
  files : List (String × List ℤ)
  deriving DecidableEq

/-- The driver callback `_audio_callback`: put a copy of the chunk at the
back of the queue (never blocks, never raises). -/
def audio_callback (c : Chunk) (s : RecorderState) : RecorderState :=
  { s with audio_queue := s.audio_queue ++ [c] }

/-- All chunks the driver delivers during a wait, in order. -/
def enqueueAll (l : List Chunk) (s : RecorderState) : RecorderState :=
  l.foldl (fun acc c => audio_callback c acc) s

theorem enqueueAll_spec : ∀ (l : List Chunk) (s : RecorderState),
    enqueueAll l s = { s with audio_queue := s.audio_queue ++ l }
  | [], s => by simp [enqueueAll]
  | c :: rest, s => by
      show enqueueAll rest (audio_callback c s) =
        { s with audio_queue := s.audio_queue ++ c :: rest }
      rw [enqueueAll_spec rest]
      simp [audio_callback]

/-- Model of `AudioRecorder.start_recording`.  `now` is the wall clock read
for the timestamp; `deviceOk` is whether `sd.InputStream(...)` succeeds.
Faithful to the source order: the already-recording guard first, then
`recording = True` and `frames = []` BEFORE the stream is opened (so a
device-open failure leaves the flag set), then stream + worker start, then
the output path is computed and returned. -/
def start_recording (now : DateTime) (deviceOk : Bool) (s : RecorderState) :
    Except RecErr String × RecorderState :=
  if s.recording then (.error .alreadyRecording, s)
  else
    if deviceOk then
      let path := wavPath s.output_dir (strftime_ts now)
      (.ok path,
        { s with
          recording := true,
          frames := [],
          streamOpen := true,
          output_file := some path })
    else
      (.error .deviceOpen, { s with recording := true, frames := [] })

/-- Model of `AudioRecorder.stop_recording`: guard, stop and close the
stream, clear the flag, join the worker (the join's effect is that all
pending chunks are drained into `frames`, per the trace theorems), then
save a WAV via `_save_wav` only when `frames` is non-empty, and return the
output path in every case. -/
def stop_recording (s : RecorderState) : Except RecErr String × RecorderState :=
  if !s.recording then (.error .notRecording, s)
  else if !s.streamOpen then (.error .streamMissing, s)
  else
    let s₂ : RecorderState :=
      { s with
        recording := false,
        streamOpen := false,
        frames := s.frames ++ s.audio_queue,
        audio_queue := [] }
    let path := s₂.output_file.getD ""
    if s₂.frames.isEmpty then (.ok path, s₂)
    else
      (.ok path,
        { s₂ with files := s₂.files ++ [(path, s₂.frames.flatten.map pcm_code)] })

/-- The outcome of `time.sleep(duration)` inside `record`'s `try`. -/
inductive SleepOutcome where
  | normal
  | keyboardInterrupt
  | otherError
  deriving DecidableEq

/-- Model of `AudioRecorder.record`: `start_recording` (its exceptions
propagate to the caller unchanged), then the wait — during which `arriving`
chunks are enqueued — and in every outcome of the wait the
`finally: return self.stop_recording()` runs: on normal completion, on
KeyboardInterrupt (caught and reported), and on any other exception (which
the `return` inside `finally` swallows). -/
def record (now : DateTime) (deviceOk : Bool) (outcome : SleepOutcome)
    (arriving : List Chunk) (s : RecorderState) :
    Except RecErr String × RecorderState :=
  match start_recording now deviceOk s with
  | (.error e, s₁) => (.error e, s₁)
  | (.ok _, s₁) =>
      let s₂ := enqueueAll arriving s₁
      match outcome with
      | .normal => stop_recording s₂
      | .keyboardInterrupt => stop_recording s₂
      | .otherError => stop_recording s₂

/-- A fresh recorder instance: idle, empty queue and buffer, nothing
written, saving under the configured `recordings` directory. -/
def recBase : RecorderState :=
  { output_dir := "recordings", recording := false, streamOpen := false,
    audio_queue := [], frames := [], output_file := none, files := [] }

/-- A fixed wall-clock reading used by the concrete witnesses. -/
def exNow : DateTime := ⟨2025, 10, 12, 12, 0, 0⟩

/-- A later wall-clock reading (one second later). -/
def exNow2 : DateTime := ⟨2025, 10, 12, 12, 0, 1⟩

/-- C5: `start_recording` raises the already-recording error exactly when
the recording flag is set at the call, and `stop_recording` raises the
not-recording error exactly when the flag is clear at the call; in every
other state neither of these errors is raised by the respective method. -/
theorem C5_guard_errors_iff (s : RecorderState) (now : DateTime) (dok : Bool) :
    ((start_recording now dok s).1 = .error .alreadyRecording ↔
      s.recording = true) ∧
    ((stop_recording s).1 = .error .notRecording ↔ s.recording = false) := by
  refine ⟨?_, ?_⟩
  · cases hr : s.recording <;> cases dok <;> simp [start_recording, hr]
  · cases hr : s.recording with
    | false => simp [stop_recording, hr]
    | true =>
        cases hst : s.streamOpen with
        | false => simp [stop_recording, hr, hst]
        | true =>
            have hok : (stop_recording s).1 =
                .ok ((s.output_file).getD "") := by
              simp only [stop_recording, hr, hst, Bool.not_true,
                Bool.false_eq_true, if_false]
              split <;> rfl
            rw [hok]
            simp [hr]

/-- C6: stopping an active session that captured zero chunks does not raise,
writes no WAV file, and still returns the output path computed at start. -/
theorem C6_stop_on_empty_session (s : RecorderState) (p : String)
    (hr : s.recording = true) (hst : s.streamOpen = true)
    (hf : s.frames = []) (hq : s.audio_queue = [])
    (hp : s.output_file = some p) :
    (stop_recording s).1 = .ok p ∧ (stop_recording s).2.files = s.files := by
  simp [stop_recording, hr, hst, hf, hq, hp]

/-- Witness for C6: start on a fresh recorder, stop immediately with no
chunks captured. -/
theorem C6_witness :
    (stop_recording (start_recording exNow true recBase).2).1 =
        .ok (wavPath "recordings" (strftime_ts exNow)) ∧
      (stop_recording (start_recording exNow true recBase).2).2.files =
        (start_recording exNow true recBase).2.files :=
  C6_stop_on_empty_session (start_recording exNow true recBase).2
    (wavPath "recordings" (strftime_ts exNow)) rfl rfl rfl rfl rfl

/-- C7: whenever `start_recording` succeeds inside `record`, the
`finally: return self.stop_recording()` makes the result independent of how
the wait ended — normal completion, KeyboardInterrupt, or any other
exception — and in each case the captured audio is flushed into `frames`
and the output path is returned. -/
theorem C7_record_stops_on_every_exit (s : RecorderState) (now : DateTime)
    (outcome : SleepOutcome) (arriving : List Chunk)
    (hr : s.recording = false) (hq : s.audio_queue = []) :
    record now true outcome arriving s = record now true .normal arriving s ∧
    (record now true outcome arriving s).1 =
      .ok (wavPath s.output_dir (strftime_ts now)) ∧
    (record now true outcome arriving s).2.recording = false ∧
    (record now true outcome arriving s).2.frames = arriving := by
  have hrec : ∀ o : SleepOutcome, record now true o arriving s =
      stop_recording (enqueueAll arriving (start_recording now true s).2) := by
    intro o
    cases o <;> simp [record, start_recording, hr]
  have hstop : stop_recording (enqueueAll arriving (start_recording now true s).2) =
      stop_recording
        { s with
          recording := true,
          frames := [],
          streamOpen := true,
          output_file := some (wavPath s.output_dir (strftime_ts now)),
          audio_queue := s.audio_queue ++ arriving } := by
    rw [enqueueAll_spec]
    simp [start_recording, hr]
  refine ⟨by rw [hrec outcome, hrec .normal], ?_, ?_, ?_⟩ <;>
    rw [hrec outcome, hstop] <;>
    · simp only [stop_recording, hq]
      cases harr : arriving.isEmpty <;>
        simp_all [stop_recording, List.isEmpty_iff]

/-- Witness for C7: a session on a fresh recorder interrupted by
KeyboardInterrupt still stops, flushes the one captured chunk, and returns
the path. -/
theorem C7_witness :
    record exNow true .keyboardInterrupt [[1/2]] recBase =
        record exNow true .normal [[1/2]] recBase ∧
      (record exNow true .keyboardInterrupt [[1/2]] recBase).1 =
        .ok (wavPath "recordings" (strftime_ts exNow)) ∧
      (record exNow true .keyboardInterrupt [[1/2]] recBase).2.recording =
        false ∧
      (record exNow true .keyboardInterrupt [[1/2]] recBase).2.frames =
        [[1/2]] :=
  C7_record_stops_on_every_exit recBase exNow .keyboardInterrupt [[1/2]]
    rfl rfl

/-- Counterexample to C9: two distinct sessions on the same recorder whose
`start_recording` calls fall within the same wall-clock second compute the
SAME output path (`strftime("%Y%m%d_%H%M%S")` has only second resolution),
so the second session's WAV overwrites the first's. -/
theorem C9_counterexample :
    (start_recording exNow true recBase).1 =
        .ok "recordings/recording_20251012_120000.wav" ∧
      (start_recording exNow true
          (stop_recording (start_recording exNow true recBase).2).2).1 =
        .ok "recordings/recording_20251012_120000.wav" := by
  constructor <;> rfl

theorem wavPath_inj (dir a b : String) (h : wavPath dir a = wavPath dir b) :
    a = b := by
  unfold wavPath at h
  have h2 := congrArg String.data h
  simp only [String.data_append] at h2
  have h3 := List.append_cancel_right h2
  have h4 := List.append_cancel_left h3
  cases a with
  | mk da =>
      cases b with
      | mk db => exact congrArg String.mk h4

/-- C9 as amended: the output paths of two sessions on the same recorder are
distinct provided their start timestamps differ at second resolution (the
formatted timestamp strings differ); only sessions started within the same
second collide. -/
theorem C9_amended_distinct_seconds (sA sB : RecorderState) (t1 t2 : DateTime)
    (hA : sA.recording = false) (hB : sB.recording = false)
    (hdir : sA.output_dir = sB.output_dir)
    (hts : strftime_ts t1 ≠ strftime_ts t2) :
    (start_recording t1 true sA).1 ≠ (start_recording t2 true sB).1 := by
  have e1 : (start_recording t1 true sA).1 =
      .ok (wavPath sA.output_dir (strftime_ts t1)) := by
    simp [start_recording, hA]
  have e2 : (start_recording t2 true sB).1 =
      .ok (wavPath sB.output_dir (strftime_ts t2)) := by
    simp [start_recording, hB]
  rw [e1, e2, hdir]
  intro h
  exact hts (wavPath_inj _ _ _ (Except.ok.inj h))

/-- Witness for the amended C9: sessions one second apart get distinct
paths. -/
theorem C9_amended_witness :
    (start_recording exNow true recBase).1 ≠
      (start_recording exNow2 true recBase).1 :=
  C9_amended_distinct_seconds recBase recBase exNow exNow2 rfl rfl rfl
    (by decide)

/-- C10: if opening the input stream fails inside `start_recording`, the
exception propagates to the caller while the recorder is left with
`recording = True` and no open stream; every subsequent `start_recording`
or `record` call on the instance then raises the already-recording error. -/
theorem C10_failed_open_wedges_recorder (s : RecorderState)
    (now now2 : DateTime) (dok : Bool) (outcome : SleepOutcome)
    (arriving : List Chunk) (hr : s.recording = false)
    (hst : s.streamOpen = false) :
    (start_recording now false s).1 = .error .deviceOpen ∧
    (start_recording now false s).2.recording = true ∧
    (start_recording now false s).2.streamOpen = false ∧
    (start_recording now2 dok (start_recording now false s).2).1 =
      .error .alreadyRecording ∧
    (record now2 dok outcome arriving (start_recording now false s).2).1 =
      .error .alreadyRecording := by
  refine ⟨by simp [start_recording, hr], by simp [start_recording, hr],
    by simp [start_recording, hr, hst], by simp [start_recording, hr], ?_⟩
  simp [record, start_recording, hr]

/-- Witness for C10 on a fresh recorder whose device open fails. -/
theorem C10_witness :
    (start_recording exNow false recBase).1 = .error .deviceOpen ∧
    (start_recording exNow false recBase).2.recording = true ∧
    (start_recording exNow false recBase).2.streamOpen = false ∧
    (start_recording exNow2 true (start_recording exNow false recBase).2).1 =
      .error .alreadyRecording ∧
    (record exNow2 true .normal [[1/2]]
        (start_recording exNow false recBase).2).1 =
      .error .alreadyRecording :=
  C10_failed_open_wedges_recorder recBase exNow exNow2 true .normal [[1/2]]
    rfl rfl

end Creek
